import Mathlib

/-!
A shallow embedding of the rspamd fuzzy hash storage worker
(src/src/fuzzy_storage.c).  The bucketed index, the three command
processors, the snapshot rewrite, the startup load and the per-connection
read callback are translated from the C source.  The Bloom filter
(bloom.c) and the similarity primitive (fuzzy.c) are external to the
given sources and are modelled from the specification, as marked on the
corresponding definitions.
-/

set_option maxRecDepth 20000

/-- LEV_LIMIT from fuzzy_storage.c: the similarity decision threshold. -/
def LEV_LIMIT : Nat := 99

/-- MOD_LIMIT from fuzzy_storage.c: the modification count that gates a resync. -/
def MOD_LIMIT : Nat := 10000

/-- BUCKETS from fuzzy_storage.c: the number of hash buckets. -/
def BUCKETS : Nat := 1024

/-- The payload bytes of a fuzzy hash (the hash pipe), kept opaque. -/
abbrev Pipe := List Nat

/-- fuzzy_hash_t: the pipe bytes together with the 32-bit block size. -/
structure fuzzy_hash_t where
  hash_pipe : Pipe
  block_size : Nat
deriving DecidableEq

/-- struct rspamd_fuzzy_node: one stored record, a hash plus its insertion time. -/
structure rspamd_fuzzy_node where
  h : fuzzy_hash_t
  time : Nat
deriving DecidableEq

/-- struct fuzzy_cmd: the fixed-width wire frame (command byte, block size, pipe). -/
structure fuzzy_cmd where
  cmd : Nat
  blocksize : Nat
  hash : Pipe
deriving DecidableEq

/-- Modelled from the spec: bloom.c is not among the given sources.  The
filter state is idealized as the multiset of added pipes, which satisfies
the published contract: maybeContains is true right after add of the same
pipe and may become false after the matching del. -/
abbrev BloomFilter := List Pipe

/-- Modelled from the spec: bloom_add, recording one added pipe. -/
def bloom_add (bf : BloomFilter) (p : Pipe) : BloomFilter := p :: bf

/-- Modelled from the spec: bloom_del, removing one occurrence of the pipe. -/
def bloom_del (bf : BloomFilter) (p : Pipe) : BloomFilter := bf.erase p

/-- Modelled from the spec: bloom_check, the maybeContains oracle. -/
def bloom_check (bf : BloomFilter) (p : Pipe) : Bool := bf.contains p

/-- Modelled from the spec: fuzzy.c and its fuzzy_compare_hashes are not
among the given sources.  The spec only requires a total, symmetric
similarity with values in 0..100, value 100 on equal hashes, and value 0
when the block sizes differ; the exact algorithm is a dependency.
blockSizeSim is one admissible instance, used to instantiate the theorems
that are parametric in the similarity primitive. -/
def blockSizeSim (a b : fuzzy_hash_t) : Nat :=
  if a.block_size = b.block_size then 100 else 0

/-- Pointwise update of the bucket array at one index. -/
def updateBucket (hs : Nat → List rspamd_fuzzy_node) (i : Nat)
    (l : List rspamd_fuzzy_node) : Nat → List rspamd_fuzzy_node :=
  fun j => if j = i then l else hs j

/-- The process-global state of the worker: the bucket array hashes, the
Bloom filter bf, and the uint32 modification counter mods. -/
structure StorageState where
  hashes : Nat → List rspamd_fuzzy_node
  bf : BloomFilter
  mods : Nat

/-- The state at worker start: empty buckets, a fresh filter, mods = 0. -/
def empty_storage : StorageState := ⟨fun _ => [], [], 0⟩

/-- The scan loop of process_check_command: walk the bucket and stop at
the first record whose similarity with the query exceeds LEV_LIMIT. -/
def checkScan (sim : fuzzy_hash_t → fuzzy_hash_t → Nat) (s : fuzzy_hash_t) :
    List rspamd_fuzzy_node → Bool
  | [] => false
  | n :: rest => if LEV_LIMIT < sim n.h s then true else checkScan sim s rest

/-- process_check_command from fuzzy_storage.c, parametric in the
similarity primitive: reject when the filter reports the query pipe
absent, else scan the bucket selected by blocksize mod BUCKETS. -/
def process_check_command (sim : fuzzy_hash_t → fuzzy_hash_t → Nat)
    (cmd : fuzzy_cmd) (st : StorageState) : Bool × StorageState :=
  if bloom_check st.bf cmd.hash = false then (false, st)
  else
    (checkScan sim ⟨cmd.hash, cmd.blocksize⟩ (st.hashes (cmd.blocksize % BUCKETS)), st)

/-- process_write_command from fuzzy_storage.c: reject when the filter
already reports the pipe, else push the new record at the head of its
bucket, add the pipe to the filter, and step the uint32 counter mods. -/
def process_write_command (cmd : fuzzy_cmd) (now : Nat) (st : StorageState) :
    Bool × StorageState :=
  if bloom_check st.bf cmd.hash = true then (false, st)
  else
    let node : rspamd_fuzzy_node := ⟨⟨cmd.hash, cmd.blocksize⟩, now⟩
    (true,
      ⟨updateBucket st.hashes (cmd.blocksize % BUCKETS)
          (node :: st.hashes (cmd.blocksize % BUCKETS)),
        bloom_add st.bf cmd.hash,
        (st.mods + 1) % 2 ^ 32⟩)

/-- The scan loop of process_delete_command: returns the surviving
records in order and the number of removed (matching) records. -/
def deleteScan (sim : fuzzy_hash_t → fuzzy_hash_t → Nat) (s : fuzzy_hash_t) :
    List rspamd_fuzzy_node → List rspamd_fuzzy_node × Nat
  | [] => ([], 0)
  | n :: rest =>
    let r := deleteScan sim s rest
    if LEV_LIMIT < sim n.h s then (r.1, r.2 + 1) else (n :: r.1, r.2)

/-- Iterated bloom_del of the same pipe, once per removed record. -/
def bloom_del_iter (bf : BloomFilter) (p : Pipe) : Nat → BloomFilter
  | 0 => bf
  | c + 1 => bloom_del (bloom_del_iter bf p c) p

/-- process_delete_command from fuzzy_storage.c, parametric in the
similarity primitive: reject when the filter reports the query pipe
absent, else drop every matching record of the bucket, call bloom_del on
the query pipe once per removed record, and step mods once per removed
record (the loop body runs mods plus plus at each removal). -/
def process_delete_command (sim : fuzzy_hash_t → fuzzy_hash_t → Nat)
    (cmd : fuzzy_cmd) (st : StorageState) : Bool × StorageState :=
  if bloom_check st.bf cmd.hash = false then (false, st)
  else
    let s : fuzzy_hash_t := ⟨cmd.hash, cmd.blocksize⟩
    let b := cmd.blocksize % BUCKETS
    let r := deleteScan sim s (st.hashes b)
    (decide (0 < r.2),
      ⟨updateBucket st.hashes b r.1,
        bloom_del_iter st.bf cmd.hash r.2,
        (st.mods + r.2) % 2 ^ 32⟩)

/-- The read loop of read_hashes_file: every full record read from the
file is pushed at the head of the bucket selected by its block size and
its pipe is added to the filter. -/
def load_records : List rspamd_fuzzy_node → StorageState → StorageState
  | [], st => st
  | n :: rest, st =>
    load_records rest
      ⟨updateBucket st.hashes (n.h.block_size % BUCKETS)
          (n :: st.hashes (n.h.block_size % BUCKETS)),
        bloom_add st.bf n.h.hash_pipe,
        st.mods⟩

/-- read_hashes_file from fuzzy_storage.c, at the level of the read loop:
recs are the full records delivered by successive reads, and tl is the
result of the final read that ends the loop (0 at end of file, a positive
count for a short garbage tail that is discarded, -1 for a read error).
The function returns FALSE exactly on a read error, and the records
loaded before the loop ended are kept in every case. -/
def read_hashes_file (recs : List rspamd_fuzzy_node) (tl : Int) :
    Bool × StorageState :=
  (if tl = -1 then false else true, load_records recs empty_storage)

/-- Unsigned 64-bit subtraction as the C expression now - time computes it. -/
def u64_sub (a b : Nat) : Nat := (a % 2 ^ 64 + 2 ^ 64 - b % 2 ^ 64) % 2 ^ 64

/-- The outcome of the sync_cache walk over one bucket: the surviving
records, the pipes passed to bloom_del, and the records written to the
snapshot file, each in walk order. -/
structure BucketSync where
  kept : List rspamd_fuzzy_node
  dels : List Pipe
  writ : List rspamd_fuzzy_node
deriving DecidableEq

/-- The inner loop of sync_cache on one bucket: an expired record (its
u64 age exceeds expire) is unlinked and its pipe passed to bloom_del; any
other record is written to the file and kept. -/
def sync_bucket (now expire : Nat) : List rspamd_fuzzy_node → BucketSync
  | [] => ⟨[], [], []⟩
  | n :: rest =>
    let r := sync_bucket now expire rest
    if expire < u64_sub now n.time then ⟨r.kept, n.h.hash_pipe :: r.dels, r.writ⟩
    else ⟨n :: r.kept, r.dels, n :: r.writ⟩

/-- Fold bloom_del over a list of pipes, in order. -/
def bloom_del_list (bf : BloomFilter) : List Pipe → BloomFilter
  | [] => bf
  | p :: ps => bloom_del_list (bloom_del bf p) ps

/-- The accumulator of the outer sync_cache loop over bucket indices. -/
structure SyncAcc where
  hs : Nat → List rspamd_fuzzy_node
  bf : BloomFilter
  deleted : List Pipe
  written : List rspamd_fuzzy_node

/-- The outer loop of sync_cache: process each bucket index in turn,
accumulating the deleted pipes and the file contents. -/
def sync_buckets (now expire : Nat) : List Nat → SyncAcc → SyncAcc
  | [], acc => acc
  | i :: rest, acc =>
    let r := sync_bucket now expire (acc.hs i)
    sync_buckets now expire rest
      ⟨updateBucket acc.hs i r.kept, bloom_del_list acc.bf r.dels,
        acc.deleted ++ r.dels, acc.written ++ r.writ⟩

/-- The observable outcome of one sync_cache call: the new state, the
records written to the snapshot file, the pipes passed to bloom_del, and
whether a rewrite was performed at all. -/
structure SyncResult where
  st : StorageState
  written : List rspamd_fuzzy_node
  deleted : List Pipe
  didSync : Bool

/-- sync_cache from fuzzy_storage.c: do nothing when mods is below
MOD_LIMIT, when no hashfile is configured, or when the open fails;
otherwise rewrite the file from the buckets, evicting expired records.
The source contains no assignment resetting mods, so the new state keeps
the old counter. -/
def sync_cache (now expire : Nat) (hasFile openOk : Bool) (st : StorageState) :
    SyncResult :=
  if st.mods < MOD_LIMIT then ⟨st, [], [], false⟩
  else if hasFile = false then ⟨st, [], [], false⟩
  else if openOk = false then ⟨st, [], [], false⟩
  else
    let acc := sync_buckets now expire (List.range BUCKETS) ⟨st.hashes, st.bf, [], []⟩
    ⟨⟨acc.hs, acc.bf, st.mods⟩, acc.written, acc.deleted, true⟩

/-- What one activation of the connection callback does to its session. -/
inductive SessionStep where
  | dispatchAndClose : SessionStep
  | close : SessionStep
  | continueReading : Nat → SessionStep
deriving DecidableEq

/-- fuzzy_io_callback from fuzzy_storage.c: sz is the frame size, pos the
count of bytes already accumulated, r the result of the read call (-1 for
an error, else the count of bytes read).  A read error frees the session;
a read completing the frame dispatches the command and frees the session;
any other read, including a zero-byte one at end of stream, only advances
the position.  A non-read activation (the timeout) frees the session. -/
def fuzzy_io_callback (sz : Nat) (isRead : Bool) (pos : Nat) (r : Int) :
    SessionStep :=
  if isRead then
    if r = -1 then .close
    else if (pos : Int) + r = (sz : Int) then .dispatchAndClose
    else .continueReading (pos + r.toNat)
  else .close

/-- Query hash used by the concrete write and check scenarios. -/
def cw3 : fuzzy_cmd := ⟨1, 5, [3, 4]⟩

/-- Concrete delete command for the mods counterexample. -/
def cdel : fuzzy_cmd := ⟨2, 0, [9]⟩

/-- First of two stored records matching the delete query. -/
def n9a : rspamd_fuzzy_node := ⟨⟨[9], 0⟩, 0⟩

/-- Second of two stored records matching the delete query. -/
def n9b : rspamd_fuzzy_node := ⟨⟨[9], 0⟩, 1⟩

/-- State holding two records that both match the delete query, as the
startup load produces when the snapshot file holds duplicates. -/
def st_two : StorageState :=
  ⟨updateBucket (fun _ => []) 0 [n9a, n9b], [[9]], 0⟩

/-- Write command of the round-trip counterexample. -/
def cw5 : fuzzy_cmd := ⟨1, 7, [1]⟩

/-- Check command of the round-trip counterexample: same block size as
cw5 but different pipe bytes. -/
def cc5 : fuzzy_cmd := ⟨0, 7, [2]⟩

/-- State whose modification counter has just reached the sync gate. -/
def st_mod_limit : StorageState := ⟨fun _ => [], [], MOD_LIMIT⟩

/-- A record old enough to be expired by the concrete sync scenario. -/
def n_old : rspamd_fuzzy_node := ⟨⟨[1], 0⟩, 0⟩

/-- State holding one expired record, at the sync gate. -/
def st6 : StorageState :=
  ⟨updateBucket (fun _ => []) 0 [n_old], [[1]], MOD_LIMIT⟩

/-- State for the delete filter scenario: one stored record whose pipe
differs from the delete query pipe, both pipes in the filter. -/
def st10 : StorageState :=
  ⟨updateBucket (fun _ => []) 0 [⟨⟨[1], 0⟩, 0⟩], [[9], [1]], 0⟩

lemma blockSizeSim_self (a : fuzzy_hash_t) : blockSizeSim a a = 100 := by
  simp [blockSizeSim]

lemma blockSizeSim_comm (a b : fuzzy_hash_t) : blockSizeSim a b = blockSizeSim b a := by
  unfold blockSizeSim
  by_cases h : a.block_size = b.block_size
  · simp [h]
  · have h2 : ¬ b.block_size = a.block_size := fun hh => h hh.symm
    simp [h, h2]

lemma blockSizeSim_le_100 (a b : fuzzy_hash_t) : blockSizeSim a b ≤ 100 := by
  unfold blockSizeSim
  by_cases h : a.block_size = b.block_size <;> simp [h]

lemma blockSizeSim_of_block_ne (a b : fuzzy_hash_t)
    (h : a.block_size ≠ b.block_size) : blockSizeSim a b = 0 := by
  simp [blockSizeSim, h]

lemma checkScan_eq_any (sim : fuzzy_hash_t → fuzzy_hash_t → Nat)
    (s : fuzzy_hash_t) (l : List rspamd_fuzzy_node) :
    checkScan sim s l = l.any (fun n => decide (LEV_LIMIT < sim n.h s)) := by
  induction l with
  | nil => rfl
  | cons n rest ih =>
    by_cases h : LEV_LIMIT < sim n.h s <;> simp [checkScan, h, ih]

lemma deleteScan_fst (sim : fuzzy_hash_t → fuzzy_hash_t → Nat)
    (s : fuzzy_hash_t) (l : List rspamd_fuzzy_node) :
    (deleteScan sim s l).1 = l.filter (fun n => !decide (LEV_LIMIT < sim n.h s)) := by
  induction l with
  | nil => rfl
  | cons n rest ih =>
    by_cases h : LEV_LIMIT < sim n.h s <;> simp [deleteScan, h, ih, List.filter_cons]

lemma deleteScan_snd (sim : fuzzy_hash_t → fuzzy_hash_t → Nat)
    (s : fuzzy_hash_t) (l : List rspamd_fuzzy_node) :
    (deleteScan sim s l).2 = l.countP (fun n => decide (LEV_LIMIT < sim n.h s)) := by
  induction l with
  | nil => rfl
  | cons n rest ih =>
    by_cases h : LEV_LIMIT < sim n.h s <;>
      simp [deleteScan, h, ih, List.countP_cons]

lemma count_bloom_del_of_ne (bf : BloomFilter) (q p : Pipe) (hpq : p ≠ q) :
    (bloom_del bf q).count p = bf.count p := by
  simpa [bloom_del] using List.count_erase_of_ne hpq bf

lemma count_bloom_del_iter_of_ne (bf : BloomFilter) (q p : Pipe) (c : Nat)
    (hpq : p ≠ q) : (bloom_del_iter bf q c).count p = bf.count p := by
  induction c with
  | zero => rfl
  | succ c ih => rw [bloom_del_iter, count_bloom_del_of_ne _ _ _ hpq, ih]

lemma load_records_hashes (l : List rspamd_fuzzy_node) (st : StorageState) (j : Nat) :
    (load_records l st).hashes j =
      (l.filter (fun n => decide (n.h.block_size % BUCKETS = j))).reverse ++ st.hashes j := by
  induction l generalizing st with
  | nil => simp [load_records]
  | cons n rest ih =>
    rw [load_records, ih]
    by_cases h : n.h.block_size % BUCKETS = j
    · simp [List.filter_cons, h, updateBucket]
    · have h2 : ¬ j = n.h.block_size % BUCKETS := fun hh => h hh.symm
      simp [List.filter_cons, h, h2, updateBucket]

lemma load_records_bf (l : List rspamd_fuzzy_node) (st : StorageState) :
    (load_records l st).bf = (l.map (fun n => n.h.hash_pipe)).reverse ++ st.bf := by
  induction l generalizing st with
  | nil => simp [load_records]
  | cons n rest ih => simp [load_records, ih, bloom_add]

lemma load_records_mods (l : List rspamd_fuzzy_node) (st : StorageState) :
    (load_records l st).mods = st.mods := by
  induction l generalizing st with
  | nil => rfl
  | cons n rest ih => rw [load_records, ih]

lemma u64_sub_of_le (a b : Nat) (hb : b ≤ a) (ha : a < 2 ^ 64) :
    u64_sub a b = a - b := by
  have h64 : (2 : Nat) ^ 64 = 18446744073709551616 := by norm_num
  unfold u64_sub
  rw [h64] at ha ⊢
  omega

lemma sync_bucket_kept (now expire : Nat) (l : List rspamd_fuzzy_node) :
    (sync_bucket now expire l).kept =
      l.filter (fun n => !decide (expire < u64_sub now n.time)) := by
  induction l with
  | nil => rfl
  | cons n rest ih =>
    by_cases h : expire < u64_sub now n.time <;>
      simp [sync_bucket, h, ih, List.filter_cons]

lemma sync_bucket_writ (now expire : Nat) (l : List rspamd_fuzzy_node) :
    (sync_bucket now expire l).writ =
      l.filter (fun n => !decide (expire < u64_sub now n.time)) := by
  induction l with
  | nil => rfl
  | cons n rest ih =>
    by_cases h : expire < u64_sub now n.time <;>
      simp [sync_bucket, h, ih, List.filter_cons]

lemma sync_bucket_dels (now expire : Nat) (l : List rspamd_fuzzy_node) :
    (sync_bucket now expire l).dels =
      (l.filter (fun n => decide (expire < u64_sub now n.time))).map
        (fun n => n.h.hash_pipe) := by
  induction l with
  | nil => rfl
  | cons n rest ih =>
    by_cases h : expire < u64_sub now n.time <;>
      simp [sync_bucket, h, ih, List.filter_cons]

lemma sync_buckets_hs_of_not_mem (now expire : Nat) (idxs : List Nat)
    (acc : SyncAcc) (b : Nat) (hb : b ∉ idxs) :
    (sync_buckets now expire idxs acc).hs b = acc.hs b := by
  induction idxs generalizing acc with
  | nil => rfl
  | cons i rest ih =>
    rw [sync_buckets, ih _ (fun hmem => hb (List.mem_cons_of_mem i hmem))]
    have hbi : b ≠ i := fun hh => hb (hh ▸ List.mem_cons_self i rest)
    simp [updateBucket, hbi]

lemma sync_buckets_hs_of_mem (now expire : Nat) (idxs : List Nat)
    (acc : SyncAcc) (b : Nat) (hnd : idxs.Nodup) (hb : b ∈ idxs) :
    (sync_buckets now expire idxs acc).hs b =
      (sync_bucket now expire (acc.hs b)).kept := by
  induction idxs generalizing acc with
  | nil => exact absurd hb (List.not_mem_nil b)
  | cons i rest ih =>
    rw [sync_buckets]
    rcases List.mem_cons.mp hb with hbi | hbr
    · subst hbi
      have hnotin : b ∉ rest := (List.nodup_cons.mp hnd).1
      rw [sync_buckets_hs_of_not_mem _ _ _ _ _ hnotin]
      simp [updateBucket]
    · have hbi : b ≠ i := by
        intro hh
        exact (List.nodup_cons.mp hnd).1 (hh ▸ hbr)
      rw [ih _ (List.nodup_cons.mp hnd).2 hbr]
      simp [updateBucket, hbi]

lemma sync_buckets_written_mem (now expire : Nat) (idxs : List Nat)
    (acc : SyncAcc) (x : rspamd_fuzzy_node) (hnd : idxs.Nodup) :
    (x ∈ (sync_buckets now expire idxs acc).written ↔
      x ∈ acc.written ∨ ∃ i ∈ idxs, x ∈ (sync_bucket now expire (acc.hs i)).writ) := by
  induction idxs generalizing acc with
  | nil => simp [sync_buckets]
  | cons i rest ih =>
    rw [sync_buckets, ih _ (List.nodup_cons.mp hnd).2]
    have hnotin : i ∉ rest := (List.nodup_cons.mp hnd).1
    dsimp only
    constructor
    · rintro (hx | ⟨j, hj, hxj⟩)
      · rcases List.mem_append.mp hx with hx1 | hx2
        · exact Or.inl hx1
        · exact Or.inr ⟨i, List.mem_cons_self i rest, hx2⟩
      · have hji : j ≠ i := fun hh => hnotin (hh ▸ hj)
        rw [updateBucket] at hxj
        simp only [if_neg hji] at hxj
        exact Or.inr ⟨j, List.mem_cons_of_mem i hj, hxj⟩
    · rintro (hx | ⟨j, hj, hxj⟩)
      · exact Or.inl (List.mem_append.mpr (Or.inl hx))
      · rcases List.mem_cons.mp hj with hji | hjr
        · subst hji
          exact Or.inl (List.mem_append.mpr (Or.inr hxj))
        · have hji : j ≠ i := fun hh => hnotin (hh ▸ hjr)
          refine Or.inr ⟨j, hjr, ?_⟩
          rw [updateBucket]
          simp only [if_neg hji]
          exact hxj

lemma sync_buckets_deleted_mem (now expire : Nat) (idxs : List Nat)
    (acc : SyncAcc) (p : Pipe) (hnd : idxs.Nodup) :
    (p ∈ (sync_buckets now expire idxs acc).deleted ↔
      p ∈ acc.deleted ∨ ∃ i ∈ idxs, p ∈ (sync_bucket now expire (acc.hs i)).dels) := by
  induction idxs generalizing acc with
  | nil => simp [sync_buckets]
  | cons i rest ih =>
    rw [sync_buckets, ih _ (List.nodup_cons.mp hnd).2]
    have hnotin : i ∉ rest := (List.nodup_cons.mp hnd).1
    dsimp only
    constructor
    · rintro (hx | ⟨j, hj, hxj⟩)
      · rcases List.mem_append.mp hx with hx1 | hx2
        · exact Or.inl hx1
        · exact Or.inr ⟨i, List.mem_cons_self i rest, hx2⟩
      · have hji : j ≠ i := fun hh => hnotin (hh ▸ hj)
        rw [updateBucket] at hxj
        simp only [if_neg hji] at hxj
        exact Or.inr ⟨j, List.mem_cons_of_mem i hj, hxj⟩
    · rintro (hx | ⟨j, hj, hxj⟩)
      · exact Or.inl (List.mem_append.mpr (Or.inl hx))
      · rcases List.mem_cons.mp hj with hji | hjr
        · subst hji
          exact Or.inl (List.mem_append.mpr (Or.inr hxj))
        · have hji : j ≠ i := fun hh => hnotin (hh ▸ hjr)
          refine Or.inr ⟨j, hjr, ?_⟩
          rw [updateBucket]
          simp only [if_neg hji]
          exact hxj

lemma process_write_of_not_found (cmd : fuzzy_cmd) (now : Nat) (st : StorageState)
    (h : bloom_check st.bf cmd.hash = false) :
    process_write_command cmd now st =
      (true,
        ⟨updateBucket st.hashes (cmd.blocksize % BUCKETS)
            (⟨⟨cmd.hash, cmd.blocksize⟩, now⟩ :: st.hashes (cmd.blocksize % BUCKETS)),
          bloom_add st.bf cmd.hash, (st.mods + 1) % 2 ^ 32⟩) := by
  simp [process_write_command, h]

/-- C4: for every check command, the state (buckets, Bloom filter and
mods) is left unchanged, and the result is true exactly when the filter
reports the query pipe as possibly present and the linear scan of bucket
blocksize mod 1024 meets a stored record whose similarity with the query
exceeds 99. -/
theorem C4_check_characterization (sim : fuzzy_hash_t → fuzzy_hash_t → Nat)
    (cmd : fuzzy_cmd) (st : StorageState) :
    (process_check_command sim cmd st).2 = st ∧
    (process_check_command sim cmd st).1 =
      (bloom_check st.bf cmd.hash &&
        (st.hashes (cmd.blocksize % BUCKETS)).any
          (fun n => decide (LEV_LIMIT < sim n.h ⟨cmd.hash, cmd.blocksize⟩))) := by
  unfold process_check_command
  cases hb : bloom_check st.bf cmd.hash with
  | false => simp
  | true => simp [checkScan_eq_any]

/-- C3: for every write command, if the Bloom filter reports the pipe as
possibly present the command returns false and leaves the whole state
unchanged; otherwise it pushes the record (hash, now) at the head of
bucket blocksize mod 1024, leaves every other bucket unchanged, adds the
pipe to the filter, increments mods by one, and returns true. -/
theorem C3_write_characterization (cmd : fuzzy_cmd) (now : Nat)
    (st : StorageState) (hm : st.mods + 1 < 2 ^ 32) :
    (bloom_check st.bf cmd.hash = true →
      process_write_command cmd now st = (false, st)) ∧
    (bloom_check st.bf cmd.hash = false →
      (process_write_command cmd now st).1 = true ∧
      (process_write_command cmd now st).2.hashes (cmd.blocksize % BUCKETS) =
        ⟨⟨cmd.hash, cmd.blocksize⟩, now⟩ :: st.hashes (cmd.blocksize % BUCKETS) ∧
      (∀ j, j ≠ cmd.blocksize % BUCKETS →
        (process_write_command cmd now st).2.hashes j = st.hashes j) ∧
      (process_write_command cmd now st).2.bf = bloom_add st.bf cmd.hash ∧
      (process_write_command cmd now st).2.mods = st.mods + 1) := by
  constructor
  · intro h
    simp [process_write_command, h]
  · intro h
    rw [process_write_of_not_found cmd now st h]
    refine ⟨rfl, ?_, ?_, rfl, Nat.mod_eq_of_lt hm⟩
    · simp [updateBucket]
    · intro j hj
      simp [updateBucket, hj]

/-- Witness for C3 at a concrete input: a write into the empty store
succeeds and steps mods from 0 to 1. -/
theorem C3_write_witness :
    empty_storage.mods + 1 < 2 ^ 32 ∧
    (process_write_command cw3 7 empty_storage).1 = true ∧
    (process_write_command cw3 7 empty_storage).2.mods = empty_storage.mods + 1 :=
  ⟨by decide,
    ((C3_write_characterization cw3 7 empty_storage (by decide)).2 (by decide)).1,
    ((C3_write_characterization cw3 7 empty_storage (by decide)).2 (by decide)).2.2.2.2⟩

/-- C2 (amended): for every delete command, if the Bloom filter reports
the query pipe as not present the command returns false and changes
nothing; otherwise it scans bucket blocksize mod 1024, removes every
record whose similarity with the query exceeds 99, calls bloom_del on
the query pipe once per removed record, increments mods once per removed
record, and returns true exactly when at least one record was removed. -/
theorem C2_delete_amended (sim : fuzzy_hash_t → fuzzy_hash_t → Nat)
    (cmd : fuzzy_cmd) (st : StorageState)
    (hm : st.mods + (st.hashes (cmd.blocksize % BUCKETS)).countP
        (fun n => decide (LEV_LIMIT < sim n.h ⟨cmd.hash, cmd.blocksize⟩)) < 2 ^ 32) :
    (bloom_check st.bf cmd.hash = false →
      process_delete_command sim cmd st = (false, st)) ∧
    (bloom_check st.bf cmd.hash = true →
      ((process_delete_command sim cmd st).1 = true ↔
        0 < (st.hashes (cmd.blocksize % BUCKETS)).countP
          (fun n => decide (LEV_LIMIT < sim n.h ⟨cmd.hash, cmd.blocksize⟩))) ∧
      (process_delete_command sim cmd st).2.hashes (cmd.blocksize % BUCKETS) =
        (st.hashes (cmd.blocksize % BUCKETS)).filter
          (fun n => !decide (LEV_LIMIT < sim n.h ⟨cmd.hash, cmd.blocksize⟩)) ∧
      (∀ j, j ≠ cmd.blocksize % BUCKETS →
        (process_delete_command sim cmd st).2.hashes j = st.hashes j) ∧
      (process_delete_command sim cmd st).2.bf =
        bloom_del_iter st.bf cmd.hash
          ((st.hashes (cmd.blocksize % BUCKETS)).countP
            (fun n => decide (LEV_LIMIT < sim n.h ⟨cmd.hash, cmd.blocksize⟩))) ∧
      (process_delete_command sim cmd st).2.mods =
        st.mods + (st.hashes (cmd.blocksize % BUCKETS)).countP
          (fun n => decide (LEV_LIMIT < sim n.h ⟨cmd.hash, cmd.blocksize⟩))) := by
  constructor
  · intro h
    simp [process_delete_command, h]
  · intro h
    refine ⟨?_, ?_, ?_, ?_, ?_⟩
    · simp [process_delete_command, h, deleteScan_snd]
    · simp [process_delete_command, h, deleteScan_fst, updateBucket]
    · intro j hj
      simp [process_delete_command, h, updateBucket, hj]
    · simp [process_delete_command, h, deleteScan_snd]
    · have hm2 := hm
      norm_num at hm2
      simp [process_delete_command, h, deleteScan_snd, Nat.mod_eq_of_lt hm2]

/-- C2 counterexample: with two stored records matching the query (as the
startup load produces from a snapshot holding duplicates), a successful
delete advances mods by two, not by one as the claim states. -/
theorem C2_delete_counterexample :
    (process_delete_command blockSizeSim cdel st_two).1 = true ∧
    ¬ (process_delete_command blockSizeSim cdel st_two).2.mods = st_two.mods + 1 := by
  decide

/-- Witness for C2 at a concrete input: the same delete advances mods by
the number of removed records. -/
theorem C2_delete_witness :
    st_two.mods + (st_two.hashes (cdel.blocksize % BUCKETS)).countP
      (fun n => decide (LEV_LIMIT < blockSizeSim n.h ⟨cdel.hash, cdel.blocksize⟩)) < 2 ^ 32 ∧
    (process_delete_command blockSizeSim cdel st_two).2.mods =
      st_two.mods + (st_two.hashes (cdel.blocksize % BUCKETS)).countP
        (fun n => decide (LEV_LIMIT < blockSizeSim n.h ⟨cdel.hash, cdel.blocksize⟩)) :=
  ⟨by decide,
    ((C2_delete_amended blockSizeSim cdel st_two (by decide)).2 (by decide)).2.2.2.2⟩

/-- C10: every bloom_del issued by a delete command takes the query pipe
of the command, so the filter occurrence count of any other pipe,
including the stored pipe of a removed record that differs from the
query pipe, is untouched, while the query pipe is deleted once per
removed record. -/
theorem C10_delete_uses_query_pipe (sim : fuzzy_hash_t → fuzzy_hash_t → Nat)
    (cmd : fuzzy_cmd) (st : StorageState) (p : Pipe)
    (hp : p ≠ cmd.hash) (hbl : bloom_check st.bf cmd.hash = true) :
    (process_delete_command sim cmd st).2.bf =
      bloom_del_iter st.bf cmd.hash
        ((st.hashes (cmd.blocksize % BUCKETS)).countP
          (fun n => decide (LEV_LIMIT < sim n.h ⟨cmd.hash, cmd.blocksize⟩))) ∧
    ((process_delete_command sim cmd st).2.bf).count p = st.bf.count p := by
  have h1 : (process_delete_command sim cmd st).2.bf =
      bloom_del_iter st.bf cmd.hash
        ((st.hashes (cmd.blocksize % BUCKETS)).countP
          (fun n => decide (LEV_LIMIT < sim n.h ⟨cmd.hash, cmd.blocksize⟩))) := by
    simp [process_delete_command, hbl, deleteScan_snd]
  exact ⟨h1, by rw [h1, count_bloom_del_iter_of_ne _ _ _ _ hp]⟩

/-- Witness for C10 at a concrete input: deleting a record whose stored
pipe differs from the query pipe leaves the stored pipe in the filter. -/
theorem C10_delete_uses_query_pipe_witness :
    ¬ ([1] : Pipe) = cdel.hash ∧
    bloom_check st10.bf cdel.hash = true ∧
    ((process_delete_command blockSizeSim cdel st10).2.bf).count [1] = st10.bf.count [1] :=
  ⟨by decide, by decide,
    (C10_delete_uses_query_pipe blockSizeSim cdel st10 [1] (by decide) (by decide)).2⟩

/-- C5 counterexample: in the empty store, a write of pipe 1 at block
size 7 succeeds, the hash with pipe 2 at the same block size has
similarity 100 under an admissible similarity primitive, yet the
following check of that hash returns false, because the filter does not
report the differing pipe and the scan is never reached. -/
theorem C5_roundtrip_counterexample :
    cw5.blocksize = cc5.blocksize ∧
    LEV_LIMIT < blockSizeSim ⟨cw5.hash, cw5.blocksize⟩ ⟨cc5.hash, cc5.blocksize⟩ ∧
    (process_write_command cw5 0 empty_storage).1 = true ∧
    (process_check_command blockSizeSim cc5
      (process_write_command cw5 0 empty_storage).2).1 = false := by
  decide

/-- C5 (amended): after a successful write of h, a check of a hash h2
with the same block size and similarity above 99 with the written record
returns true, provided the Bloom filter reports the pipe of h2 as
possibly present in the post-write state; in particular this holds
whenever h2 has the same pipe as h. -/
theorem C5_roundtrip_amended (sim : fuzzy_hash_t → fuzzy_hash_t → Nat)
    (cw cc : fuzzy_cmd) (now : Nat) (st : StorageState)
    (hb : cw.blocksize = cc.blocksize)
    (hsim : LEV_LIMIT < sim ⟨cw.hash, cw.blocksize⟩ ⟨cc.hash, cc.blocksize⟩)
    (hw : (process_write_command cw now st).1 = true)
    (hbloom : bloom_check (process_write_command cw now st).2.bf cc.hash = true) :
    (process_check_command sim cc (process_write_command cw now st).2).1 = true := by
  obtain ⟨wc, wb, wh⟩ := cw
  obtain ⟨cc1, cb, ch⟩ := cc
  dsimp at hb hsim hw hbloom ⊢
  subst hb
  have hbcf : bloom_check st.bf wh = false := by
    cases h2 : bloom_check st.bf wh
    · rfl
    · exfalso
      simp [process_write_command, h2] at hw
  rw [process_write_of_not_found ⟨wc, wb, wh⟩ now st hbcf] at hbloom ⊢
  dsimp at hbloom ⊢
  simp [process_check_command, hbloom, checkScan, updateBucket, hsim]

/-- Witness for C5 at a concrete input: write then check of the very same
hash in the empty store, where the filter necessarily reports the pipe. -/
theorem C5_roundtrip_witness :
    cw3.blocksize = cw3.blocksize ∧
    LEV_LIMIT < blockSizeSim ⟨cw3.hash, cw3.blocksize⟩ ⟨cw3.hash, cw3.blocksize⟩ ∧
    (process_write_command cw3 7 empty_storage).1 = true ∧
    bloom_check (process_write_command cw3 7 empty_storage).2.bf cw3.hash = true ∧
    (process_check_command blockSizeSim cw3
      (process_write_command cw3 7 empty_storage).2).1 = true :=
  ⟨rfl, by decide, by decide, by decide,
    C5_roundtrip_amended blockSizeSim cw3 cw3 7 empty_storage rfl
      (by decide) (by decide) (by decide)⟩

/-- C7: at startup, every full record read from the snapshot file is
pushed at the head of the bucket selected by its block size mod 1024 (so
a bucket holds the matching records in reverse read order) and its pipe
is added to the Bloom filter; the final short or empty read inserts
nothing, the loaded state does not depend on how the stream ended, and
only a read error makes the function return false, keeping the records
already loaded. -/
theorem C7_load_characterization (recs : List rspamd_fuzzy_node) (tl : Int) :
    (∀ j, (read_hashes_file recs tl).2.hashes j =
        (recs.filter (fun n => decide (n.h.block_size % BUCKETS = j))).reverse) ∧
    (read_hashes_file recs tl).2.bf =
      (recs.map (fun n => n.h.hash_pipe)).reverse ∧
    (read_hashes_file recs tl).2.mods = 0 ∧
    (read_hashes_file recs tl).2 = (read_hashes_file recs 0).2 ∧
    ((read_hashes_file recs tl).1 = false ↔ tl = -1) := by
  refine ⟨?_, ?_, ?_, rfl, ?_⟩
  · intro j
    simp [read_hashes_file, load_records_hashes, empty_storage]
  · simp [read_hashes_file, load_records_bf, empty_storage]
  · simp [read_hashes_file, load_records_mods, empty_storage]
  · by_cases h : tl = -1 <;> simp [read_hashes_file, h]

/-- C8 counterexample: a zero-byte read (end of file) on a session that
has accumulated nothing does not close the session; the callback leaves
it reading at the same position, in contradiction with the claim that an
EOF before completion transitions the session to Closed. -/
theorem C8_eof_counterexample :
    fuzzy_io_callback 69 true 0 0 = SessionStep.continueReading 0 ∧
    ¬ fuzzy_io_callback 69 true 0 0 = SessionStep.close := by
  decide

/-- C8 (amended): when a read on the connection returns an error (-1)
the session is closed without dispatching a command; a read returning
zero bytes (EOF) before the frame is complete does not close the
session, which stays in the reading state with its position unchanged
(it is closed later by the timeout activation). -/
theorem C8_error_close_amended (sz pos : Nat) (hpos : pos < sz) :
    fuzzy_io_callback sz true pos (-1) = SessionStep.close ∧
    fuzzy_io_callback sz true pos 0 = SessionStep.continueReading pos := by
  constructor
  · simp [fuzzy_io_callback]
  · have h2 : ¬ pos = sz := by omega
    simp [fuzzy_io_callback, h2]

/-- Witness for the amended C8 at a concrete input. -/
theorem C8_error_close_witness :
    (0 : Nat) < 69 ∧
    fuzzy_io_callback 69 true 0 (-1) = SessionStep.close ∧
    fuzzy_io_callback 69 true 0 0 = SessionStep.continueReading 0 :=
  ⟨by decide, (C8_error_close_amended 69 0 (by decide)).1,
    (C8_error_close_amended 69 0 (by decide)).2⟩

/-- C9: the callback dispatches a command only when the bytes
accumulated so far plus the bytes just read equal exactly the frame
size, and every activation either dispatches and closes, closes, or
keeps accumulating; a short frame is never dispatched. -/
theorem C9_dispatch_iff_complete (sz pos : Nat) (r : Int) (isRead : Bool)
    (hr : r = -1 ∨ 0 ≤ r) :
    (fuzzy_io_callback sz isRead pos r = SessionStep.dispatchAndClose →
      pos + r.toNat = sz) ∧
    (fuzzy_io_callback sz isRead pos r = SessionStep.dispatchAndClose ∨
      fuzzy_io_callback sz isRead pos r = SessionStep.close ∨
      fuzzy_io_callback sz isRead pos r = SessionStep.continueReading (pos + r.toNat)) := by
  cases isRead with
  | false => simp [fuzzy_io_callback]
  | true =>
    by_cases h1 : r = -1
    · simp [fuzzy_io_callback, h1]
    · by_cases h2 : (pos : Int) + r = (sz : Int)
      · constructor
        · intro _
          rcases hr with hr | hr
          · exact absurd hr h1
          · omega
        · simp [fuzzy_io_callback, h1, h2]
      · simp [fuzzy_io_callback, h1, h2]

/-- Witness for C9 at a concrete input: a read of 4 bytes at position 65
of a 69-byte frame completes it and dispatches. -/
theorem C9_dispatch_witness :
    ((4 : Int) = -1 ∨ (0 : Int) ≤ 4) ∧
    (fuzzy_io_callback 69 true 65 4 = SessionStep.dispatchAndClose →
      65 + (4 : Int).toNat = 69) ∧
    (fuzzy_io_callback 69 true 65 4 = SessionStep.dispatchAndClose ∨
      fuzzy_io_callback 69 true 65 4 = SessionStep.close ∨
      fuzzy_io_callback 69 true 65 4 = SessionStep.continueReading (65 + (4 : Int).toNat)) :=
  ⟨by decide, (C9_dispatch_iff_complete 69 65 4 true (by decide)).1,
    (C9_dispatch_iff_complete 69 65 4 true (by decide)).2⟩

/-- C1: the claim says mods equals 0 after a rewrite, but the body of
sync_cache in the source contains no assignment to mods at all; at a
state whose counter has reached MOD_LIMIT with the rewrite fully
performed, the counter afterwards still equals MOD_LIMIT, not 0. -/
theorem C1_sync_mods_not_reset :
    (sync_cache 0 172800 true true st_mod_limit).didSync = true ∧
    (sync_cache 0 172800 true true st_mod_limit).st.mods = MOD_LIMIT ∧
    ¬ (sync_cache 0 172800 true true st_mod_limit).st.mods = 0 := by
  refine ⟨rfl, rfl, by decide⟩

/-- C6: when a rewrite runs (mods at or above MOD_LIMIT, hashfile
configured, open successful), every record of a bucket whose age now
minus time exceeds the configured TTL is absent from that bucket
afterwards, its pipe is passed to bloom_del, and it is not written to
the snapshot file, while every non-expired record is written. -/
theorem C6_ttl_eviction (now expire : Nat) (st : StorageState)
    (r : rspamd_fuzzy_node) (b : Nat)
    (hnow : now < 2 ^ 64) (ht : r.time ≤ now)
    (hm : MOD_LIMIT ≤ st.mods) (hb : b < BUCKETS) (hr : r ∈ st.hashes b) :
    (expire < now - r.time →
      r ∉ (sync_cache now expire true true st).st.hashes b ∧
      r.h.hash_pipe ∈ (sync_cache now expire true true st).deleted ∧
      r ∉ (sync_cache now expire true true st).written) ∧
    (¬ expire < now - r.time →
      r ∈ (sync_cache now expire true true st).written) := by
  have hgate : ¬ st.mods < MOD_LIMIT := not_lt.mpr hm
  have hsub : u64_sub now r.time = now - r.time := u64_sub_of_le now r.time ht hnow
  have hsc : sync_cache now expire true true st =
      ⟨⟨(sync_buckets now expire (List.range BUCKETS) ⟨st.hashes, st.bf, [], []⟩).hs,
          (sync_buckets now expire (List.range BUCKETS) ⟨st.hashes, st.bf, [], []⟩).bf,
          st.mods⟩,
        (sync_buckets now expire (List.range BUCKETS) ⟨st.hashes, st.bf, [], []⟩).written,
        (sync_buckets now expire (List.range BUCKETS) ⟨st.hashes, st.bf, [], []⟩).deleted,
        true⟩ := by
    simp [sync_cache, hgate]
  rw [hsc]
  dsimp
  have hmemb : b ∈ List.range BUCKETS := List.mem_range.mpr hb
  have hnd := List.nodup_range BUCKETS
  constructor
  · intro hexp
    have hdec : decide (expire < u64_sub now r.time) = true := by
      rw [hsub]
      exact decide_eq_true hexp
    refine ⟨?_, ?_, ?_⟩
    · rw [sync_buckets_hs_of_mem now expire _ _ b hnd hmemb]
      dsimp
      rw [sync_bucket_kept]
      intro hmem
      have hpr := (List.mem_filter.mp hmem).2
      simp only [hdec] at hpr
      simp at hpr
    · rw [sync_buckets_deleted_mem now expire _ _ _ hnd]
      refine Or.inr ⟨b, hmemb, ?_⟩
      dsimp
      rw [sync_bucket_dels]
      exact List.mem_map.mpr ⟨r, List.mem_filter.mpr ⟨hr, hdec⟩, rfl⟩
    · rw [sync_buckets_written_mem now expire _ _ _ hnd]
      rintro (hmem | ⟨i, hi, hmem⟩)
      · simp at hmem
      · dsimp at hmem
        rw [sync_bucket_writ] at hmem
        have hpr := (List.mem_filter.mp hmem).2
        simp only [hdec] at hpr
        simp at hpr
  · intro hexp
    have hdec : decide (expire < u64_sub now r.time) = false := by
      rw [hsub]
      exact decide_eq_false hexp
    rw [sync_buckets_written_mem now expire _ _ _ hnd]
    refine Or.inr ⟨b, hmemb, ?_⟩
    dsimp
    rw [sync_bucket_writ]
    refine List.mem_filter.mpr ⟨hr, ?_⟩
    simp [hdec]

/-- Witness for C6 at a concrete input: the store holds one record of
age 5 with TTL 3 at the sync gate; after the rewrite the record is gone
from its bucket, its pipe went through bloom_del, and it is not in the
file. -/
theorem C6_ttl_eviction_witness :
    n_old.time ≤ 5 ∧ MOD_LIMIT ≤ st6.mods ∧ 3 < 5 - n_old.time ∧
    n_old ∉ (sync_cache 5 3 true true st6).st.hashes 0 ∧
    n_old.h.hash_pipe ∈ (sync_cache 5 3 true true st6).deleted ∧
    n_old ∉ (sync_cache 5 3 true true st6).written :=
  ⟨by decide, by decide, by decide,
    ((C6_ttl_eviction 5 3 st6 n_old 0 (by decide) (by decide) (by decide)
      (by decide) (by decide)).1 (by decide)).1,
    ((C6_ttl_eviction 5 3 st6 n_old 0 (by decide) (by decide) (by decide)
      (by decide) (by decide)).1 (by decide)).2.1,
    ((C6_ttl_eviction 5 3 st6 n_old 0 (by decide) (by decide) (by decide)
      (by decide) (by decide)).1 (by decide)).2.2⟩
